import Mathlib

/-!
# UA3F sockmap data plane

A shallow embedding of `src/internal/bpf/sockmap.c`: the two BPF map
declarations (`sockhash`, `peer`), the stream parser program and the stream
verdict program, together with the parts of their environment the programs
touch (the kernel helpers they call, the state of the sockets the helpers
inspect, and the kernel's reading of the value they return).

Integers: socket cookies are `__u64` keys and are only compared, never
computed with, so they are plain `Nat`.  The buffer length is a `__u32` that
the parser returns through an `int`; that conversion is modelled explicitly
with `% 2^32` and the two's complement reading of the result.
-/

namespace UA3F

/-! ## BPF maps -/

/-- The map types used by `sockmap.c` (`linux/bpf.h`, `enum bpf_map_type`). -/
inductive BpfMapType where
  | BPF_MAP_TYPE_HASH
  | BPF_MAP_TYPE_SOCKHASH
deriving DecidableEq, Repr

/-- A map declaration as written in a `SEC(".maps")` struct: the type, the
capacity, and the key and value widths in bits. -/
structure BpfMapDef where
  type : BpfMapType
  max_entries : Nat
  key_bits : Nat
  value_bits : Nat
deriving DecidableEq, Repr

/-- The declaration `sockhash` (sockmap.c lines 6-12): socket cookie to socket. -/
def sockhash : BpfMapDef :=
  { type := BpfMapType.BPF_MAP_TYPE_SOCKHASH, max_entries := 131072,
    key_bits := 64, value_bits := 32 }

/-- The declaration `peer` (sockmap.c lines 14-20): cookie to peer cookie. -/
def peer : BpfMapDef :=
  { type := BpfMapType.BPF_MAP_TYPE_HASH, max_entries := 131072,
    key_bits := 64, value_bits := 64 }

/-- First value stored under `k` in an association list. -/
def findEntry : List (Nat × Nat) → Nat → Option Nat
  | [], _ => none
  | (k', v) :: rest, k => if k' = k then some v else findEntry rest k

/-- Store `v` under `k`: overwrite the entry of `k` when there is one, add a
new entry otherwise. -/
def putEntry : List (Nat × Nat) → Nat → Nat → List (Nat × Nat)
  | [], k, v => [(k, v)]
  | (k', v') :: rest, k, v =>
    if k' = k then (k, v) :: rest else (k', v') :: putEntry rest k v

/-- Drop every entry stored under `k`. -/
def eraseEntry : List (Nat × Nat) → Nat → List (Nat × Nat)
  | [], _ => []
  | (k', v') :: rest, k =>
    if k' = k then eraseEntry rest k else (k', v') :: eraseEntry rest k

/-- The contents of one BPF hash table: its key/value entries.  For `sockhash`
the value is the kernel's reference to the stored socket, for `peer` it is the
peer's cookie. -/
structure BpfMap where
  entries : List (Nat × Nat)
deriving DecidableEq, Repr

namespace BpfMap

/-- The table with no entry. -/
def empty : BpfMap := ⟨[]⟩

/-- Number of entries held. -/
def size (t : BpfMap) : Nat := t.entries.length

/-- The value stored under `key`, if any. -/
def lookup (t : BpfMap) (key : Nat) : Option Nat := findEntry t.entries key

end BpfMap

/-- The two tables of the program, `sockhash` (Socket Registry) and `peer`
(Peer Directory). -/
structure Maps where
  sockhash : BpfMap
  peer : BpfMap
deriving DecidableEq, Repr

/-- Both tables empty, as right after the program is loaded. -/
def Maps.empty : Maps := ⟨BpfMap.empty, BpfMap.empty⟩

/-! ## The buffer and the kernel interface -/

/-- What the programs can observe of `struct __sk_buff`: the length field
(`__u32 len`), the cookie of the socket the data arrived on, and the payload. -/
structure SkBuff where
  len : Nat
  cookie : Nat
  data : List Nat
deriving DecidableEq, Repr

/-- Constant `SK_DROP` of `enum sk_action` (`linux/bpf.h`). -/
def SK_DROP : Int := 0

/-- Constant `SK_PASS` of `enum sk_action` (`linux/bpf.h`). -/
def SK_PASS : Int := 1

/-- Flag `BPF_F_INGRESS` (`linux/bpf.h`), bit 0 of the redirect flags. -/
def BPF_F_INGRESS : Nat := 1

/-- The C conversion of a `__u32` to `int` (two's complement, 32 bits). -/
def u32_to_int (n : Nat) : Int :=
  if n % 2 ^ 32 < 2 ^ 31 then ((n % 2 ^ 32 : Nat) : Int)
  else ((n % 2 ^ 32 : Nat) : Int) - 2 ^ 32

/-- A redirect recorded on a buffer by a redirect helper: the target socket
and the direction (`ingress = true` is the target's receive queue, `false`
its transmit path). -/
structure Redirect where
  sk : Nat
  ingress : Bool
deriving DecidableEq, Repr

/-- Result of running one program on one buffer: the `int` it returned, the
redirect it recorded on the buffer (if any), and the tables afterwards. -/
structure Outcome where
  ret : Int
  redir : Option Redirect
  maps : Maps
deriving DecidableEq, Repr

/-- State `TCP_ESTABLISHED` of `sk_state` (`net/tcp_states.h`). -/
def TCP_ESTABLISHED : Nat := 1

/-- State `TCP_LISTEN` of `sk_state` (`net/tcp_states.h`). -/
def TCP_LISTEN : Nat := 10

/-- What the redirect helper reads of the `struct sock` a `sockhash` entry
refers to: whether it is a TCP socket, and its `sk_state`. -/
structure Sock where
  is_tcp : Bool
  sk_state : Nat
deriving DecidableEq, Repr

/-- Kernel function `sock_map_redirect_allowed` (`net/core/sock_map.c`): a
TCP socket can take redirected data unless it is listening, any other socket
only when it is established. -/
def sock_map_redirect_allowed (sk : Sock) : Bool :=
  if sk.is_tcp then sk.sk_state != TCP_LISTEN else sk.sk_state == TCP_ESTABLISHED

/-- Kernel helper `bpf_get_socket_cookie`: the cookie of the buffer's socket. -/
def bpf_get_socket_cookie (skb : SkBuff) : Nat := skb.cookie

/-- Kernel helper `bpf_map_lookup_elem`: the value stored under `key`, or the
null pointer (`none`). -/
def bpf_map_lookup_elem (map : BpfMap) (key : Nat) : Option Nat := map.lookup key

/-- Kernel helper `bpf_sk_redirect_hash(skb, map, key, flags)`, by its contract
in `linux/bpf.h` ("SK_PASS on success, or SK_DROP on error"; the ingress path
is selected if `BPF_F_INGRESS` is present in the flags, egress otherwise, and
no other flag is supported: `flags & ~BPF_F_INGRESS` must be zero, the
complement taken in 64 bits).  The errors are an unsupported flag, no socket
under `key`, and a socket under `key` that cannot take redirected data
(`sock_map_redirect_allowed`).  On success the socket found under `key` is
recorded on the buffer as the redirect target.  Returns the helper's return
value and the redirect it recorded.  `socks` gives the state of the socket
behind each reference stored in the map. -/
def bpf_sk_redirect_hash (socks : Nat → Sock) (map : BpfMap) (key : Nat) (flags : Nat) :
    Int × Option Redirect :=
  if flags &&& (2 ^ 64 - 1 - BPF_F_INGRESS) ≠ 0 then (SK_DROP, none)
  else
    match map.lookup key with
    | none => (SK_DROP, none)
    | some sk =>
      if sock_map_redirect_allowed (socks sk) then
        (SK_PASS, some ⟨sk, decide (flags &&& BPF_F_INGRESS ≠ 0)⟩)
      else (SK_DROP, none)

/-- The three things the kernel can do with a buffer after the verdict
program ran. -/
inductive Decision where
  | DROP
  | PASS
  | REDIRECT (target : Nat) (ingress : Bool)
deriving DecidableEq, Repr

/-- How the kernel reads a verdict program's outcome: `SK_PASS` with a
recorded redirect is a redirect, `SK_PASS` without one is local delivery,
anything else drops the data. -/
def Outcome.decision (o : Outcome) : Decision :=
  if o.ret = SK_PASS then
    match o.redir with
    | some r => Decision.REDIRECT r.sk r.ingress
    | none => Decision.PASS
  else Decision.DROP

/-! ## The two programs -/

/-- Program `stream_parser` (sockmap.c lines 22-26): `return skb->len;`, the
`__u32` length returned through the program's `int` result. -/
def stream_parser_prog (m : Maps) (skb : SkBuff) : Outcome :=
  { ret := u32_to_int skb.len, redir := none, maps := m }

/-- Program `stream_verdict` (sockmap.c lines 28-39), run with the sockets in
the state `socks`. -/
def stream_verdict (socks : Nat → Sock) (m : Maps) (skb : SkBuff) : Outcome :=
  let c := bpf_get_socket_cookie skb
  match bpf_map_lookup_elem m.peer c with
  | none => { ret := SK_PASS, redir := none, maps := m }
  | some peer_cookie =>
    let r := bpf_sk_redirect_hash socks m.sockhash peer_cookie 0
    { ret := r.1, redir := r.2, maps := m }

/-! ## Control plane

The control plane that fills and empties the two tables is user-space code
outside `sockmap.c`; its four operations are described by the specification
only. -/

/-- Modelled from the spec: the store operation behind `insert` and `link` on
a fixed-capacity table; the code performing it is missing (it is control-plane
code outside sockmap.c).  It "installs/overwrites" the entry of `key`: a key
that has an entry keeps its slot and gets the new value; a key without entry
is added while the table holds fewer than `cap` entries; at capacity the
operation fails (`none`) and nothing is stored. -/
def BpfMap.update (cap : Nat) (t : BpfMap) (key value : Nat) : Option BpfMap :=
  if (t.lookup key).isSome ∨ t.size < cap then
    some ⟨putEntry t.entries key value⟩
  else none

/-- Modelled from the spec: the delete operation behind `remove` and `unlink`;
the code performing it is missing (control-plane code outside sockmap.c).  The
entry of `key` is removed; a key without entry leaves the table as it is. -/
def BpfMap.delete (t : BpfMap) (key : Nat) : BpfMap :=
  ⟨eraseEntry t.entries key⟩

namespace SocketRegistry

/-- Modelled from the spec: `insert(id, ref)` of the Socket Registry, missing
from the sources (control plane): "registers a redirect target for `id`,
overwriting any prior entry"; it fails (`none`) when the table is at capacity. -/
def insert (m : Maps) (id ref : Nat) : Option Maps :=
  (m.sockhash.update sockhash.max_entries id ref).map fun t => { m with sockhash := t }

/-- Modelled from the spec: `remove(id)` of the Socket Registry, missing from
the sources (control plane): "deregisters" `id`. -/
def remove (m : Maps) (id : Nat) : Maps :=
  { m with sockhash := m.sockhash.delete id }

end SocketRegistry

namespace PeerDirectory

/-- Modelled from the spec: `link(id, peerId)` of the Peer Directory, missing
from the sources (control plane): "installs/overwrites the directed mapping";
it fails (`none`) when the table is at capacity. -/
def link (m : Maps) (id peerId : Nat) : Option Maps :=
  (m.peer.update peer.max_entries id peerId).map fun t => { m with peer := t }

/-- Modelled from the spec: `unlink(id)` of the Peer Directory, missing from
the sources (control plane): "removes" the mapping of `id`. -/
def unlink (m : Maps) (id : Nat) : Maps :=
  { m with peer := m.peer.delete id }

end PeerDirectory

/-- Everything that can happen to the tables: the four control-plane
operations and the two data-plane programs running on a buffer. -/
inductive Event where
  | insert (id ref : Nat)
  | remove (id : Nat)
  | link (id peerId : Nat)
  | unlink (id : Nat)
  | parser (skb : SkBuff)
  | verdict (skb : SkBuff)
deriving DecidableEq, Repr

/-- The tables after one event.  A control-plane store that fails leaves the
tables as they were. -/
def step (socks : Nat → Sock) (m : Maps) : Event → Maps
  | Event.insert id ref => (SocketRegistry.insert m id ref).getD m
  | Event.remove id => SocketRegistry.remove m id
  | Event.link id peerId => (PeerDirectory.link m id peerId).getD m
  | Event.unlink id => PeerDirectory.unlink m id
  | Event.parser skb => (stream_parser_prog m skb).maps
  | Event.verdict skb => (stream_verdict socks m skb).maps

/-- The tables after a sequence of events. -/
def run (socks : Nat → Sock) (m : Maps) (evs : List Event) : Maps :=
  evs.foldl (step socks) m

/-! ## Concrete table states used in the examples -/

/-- A table holding `n` entries, under the keys `0 .. n-1`. -/
def BpfMap.filled (n : Nat) : BpfMap := ⟨(List.range n).map fun k => (k, k)⟩

/-- Both tables filled up to their capacity. -/
def fullMaps : Maps := ⟨BpfMap.filled sockhash.max_entries, BpfMap.filled peer.max_entries⟩

/-- Sockets 1 and 2 registered and linked to each other, socket 3 linked to
the unregistered socket 9. -/
def pairedMaps : Maps := ⟨⟨[(2, 200), (1, 100)]⟩, ⟨[(1, 2), (2, 1), (3, 9)]⟩⟩

/-- Every socket an established TCP socket. -/
def establishedSocks : Nat → Sock := fun _ => ⟨true, TCP_ESTABLISHED⟩

/-- Socket 200 a listening TCP socket, every other socket established. -/
def listeningSocks : Nat → Sock := fun sk =>
  if sk = 200 then ⟨true, TCP_LISTEN⟩ else ⟨true, TCP_ESTABLISHED⟩

/-- Socket 1 registered under another socket reference; socket 2's link and
the links of other sockets differ from `pairedMaps`, socket 1's link and
socket 2's registry entry are the same. -/
def relinkedMaps : Maps := ⟨⟨[(1, 555), (2, 200)]⟩, ⟨[(5, 6), (1, 2), (2, 7)]⟩⟩

/-- The verdict and target of an outcome: the returned `int` and the redirect
recorded. -/
def Outcome.verdict (o : Outcome) : Int × Option Redirect := (o.ret, o.redir)

/-! ## Association-list facts -/

theorem findEntry_putEntry_same (l : List (Nat × Nat)) (k v : Nat) :
    findEntry (putEntry l k v) k = some v := by
  induction l with
  | nil => simp [putEntry, findEntry]
  | cons p rest ih =>
    obtain ⟨k', v'⟩ := p
    by_cases h : k' = k
    · simp [putEntry, findEntry, h]
    · simp [putEntry, findEntry, h, ih]

theorem findEntry_putEntry_other (l : List (Nat × Nat)) (k v k2 : Nat) (hne : k2 ≠ k) :
    findEntry (putEntry l k v) k2 = findEntry l k2 := by
  induction l with
  | nil => simp [putEntry, findEntry, Ne.symm hne]
  | cons p rest ih =>
    obtain ⟨k', v'⟩ := p
    by_cases h : k' = k
    · subst h
      simp [putEntry, findEntry, Ne.symm hne]
    · by_cases h2 : k' = k2
      · subst h2
        simp [putEntry, findEntry, h]
      · simp [putEntry, findEntry, h, h2, ih]

theorem findEntry_eraseEntry_same (l : List (Nat × Nat)) (k : Nat) :
    findEntry (eraseEntry l k) k = none := by
  induction l with
  | nil => simp [eraseEntry, findEntry]
  | cons p rest ih =>
    obtain ⟨k', v'⟩ := p
    by_cases h : k' = k
    · simp [eraseEntry, h, ih]
    · simp [eraseEntry, findEntry, h, ih]

theorem findEntry_eraseEntry_other (l : List (Nat × Nat)) (k k2 : Nat) (hne : k2 ≠ k) :
    findEntry (eraseEntry l k) k2 = findEntry l k2 := by
  induction l with
  | nil => simp [eraseEntry, findEntry]
  | cons p rest ih =>
    obtain ⟨k', v'⟩ := p
    by_cases h : k' = k
    · subst h
      simp [eraseEntry, findEntry, Ne.symm hne, ih]
    · by_cases h2 : k' = k2
      · subst h2
        simp [eraseEntry, findEntry, h]
      · simp [eraseEntry, findEntry, h, h2, ih]

theorem eraseEntry_of_findEntry_none (l : List (Nat × Nat)) (k : Nat)
    (hnone : findEntry l k = none) : eraseEntry l k = l := by
  induction l with
  | nil => simp [eraseEntry]
  | cons p rest ih =>
    obtain ⟨k', v'⟩ := p
    by_cases h : k' = k
    · simp [findEntry, h] at hnone
    · simp only [findEntry, h, if_false] at hnone
      simp [eraseEntry, h, ih hnone]

theorem putEntry_putEntry (l : List (Nat × Nat)) (k v : Nat) :
    putEntry (putEntry l k v) k v = putEntry l k v := by
  induction l with
  | nil => simp [putEntry]
  | cons p rest ih =>
    obtain ⟨k', v'⟩ := p
    by_cases h : k' = k
    · simp [putEntry, h]
    · simp [putEntry, h, ih]

theorem length_putEntry_of_isSome (l : List (Nat × Nat)) (k v : Nat)
    (hsome : (findEntry l k).isSome) : (putEntry l k v).length = l.length := by
  induction l with
  | nil => simp [findEntry] at hsome
  | cons p rest ih =>
    obtain ⟨k', v'⟩ := p
    by_cases h : k' = k
    · simp [putEntry, h]
    · simp only [findEntry, h, if_false] at hsome
      simp [putEntry, h, ih hsome]

theorem length_putEntry_le (l : List (Nat × Nat)) (k v : Nat) :
    (putEntry l k v).length ≤ l.length + 1 := by
  induction l with
  | nil => simp [putEntry]
  | cons p rest ih =>
    obtain ⟨k', v'⟩ := p
    by_cases h : k' = k
    · simp [putEntry, h]
    · simp [putEntry, h, ih]

theorem length_eraseEntry_le (l : List (Nat × Nat)) (k : Nat) :
    (eraseEntry l k).length ≤ l.length := by
  induction l with
  | nil => simp [eraseEntry]
  | cons p rest ih =>
    obtain ⟨k', v'⟩ := p
    by_cases h : k' = k
    · simp only [eraseEntry, h, if_true, List.length_cons]
      omega
    · simp [eraseEntry, h, ih]

theorem findEntry_none_of_keys_ne (l : List (Nat × Nat)) (k : Nat)
    (hall : ∀ p ∈ l, p.1 ≠ k) : findEntry l k = none := by
  induction l with
  | nil => simp [findEntry]
  | cons p rest ih =>
    obtain ⟨k', v'⟩ := p
    have h : k' ≠ k := hall (k', v') (List.mem_cons_self _ _)
    simp only [findEntry, h, if_false]
    exact ih fun q hq => hall q (List.mem_cons_of_mem _ hq)

theorem size_filled (n : Nat) : (BpfMap.filled n).size = n := by
  simp [BpfMap.filled, BpfMap.size]

theorem lookup_filled_none (n k : Nat) (hk : n ≤ k) : (BpfMap.filled n).lookup k = none := by
  apply findEntry_none_of_keys_ne
  intro p hp
  simp only [BpfMap.filled, List.mem_map, List.mem_range] at hp
  obtain ⟨a, ha, rfl⟩ := hp
  simp only
  omega

/-! ## The verdict program, case by case -/

theorem redirect_hash_flags_zero (socks : Nat → Sock) (map : BpfMap) (key : Nat) :
    bpf_sk_redirect_hash socks map key 0 =
      match map.lookup key with
      | none => (SK_DROP, none)
      | some sk =>
        if sock_map_redirect_allowed (socks sk) then (SK_PASS, some ⟨sk, false⟩)
        else (SK_DROP, none) := by
  unfold bpf_sk_redirect_hash
  cases map.lookup key <;> simp [BPF_F_INGRESS]

theorem stream_verdict_maps (socks : Nat → Sock) (m : Maps) (skb : SkBuff) :
    (stream_verdict socks m skb).maps = m := by
  unfold stream_verdict
  simp only
  split <;> rfl

theorem stream_verdict_unlinked {socks : Nat → Sock} (m : Maps) (skb : SkBuff)
    (hp : m.peer.lookup skb.cookie = none) :
    stream_verdict socks m skb = { ret := SK_PASS, redir := none, maps := m } := by
  simp [stream_verdict, bpf_get_socket_cookie, bpf_map_lookup_elem, hp]

theorem stream_verdict_linked {socks : Nat → Sock} (m : Maps) (skb : SkBuff) (B sk : Nat)
    (hp : m.peer.lookup skb.cookie = some B) (hs : m.sockhash.lookup B = some sk)
    (hallow : sock_map_redirect_allowed (socks sk) = true) :
    stream_verdict socks m skb
      = { ret := SK_PASS, redir := some ⟨sk, false⟩, maps := m } := by
  simp [stream_verdict, bpf_get_socket_cookie, bpf_map_lookup_elem, hp,
    redirect_hash_flags_zero, hs, hallow]

theorem stream_verdict_refused {socks : Nat → Sock} (m : Maps) (skb : SkBuff) (B sk : Nat)
    (hp : m.peer.lookup skb.cookie = some B) (hs : m.sockhash.lookup B = some sk)
    (hdeny : sock_map_redirect_allowed (socks sk) = false) :
    stream_verdict socks m skb = { ret := SK_DROP, redir := none, maps := m } := by
  simp [stream_verdict, bpf_get_socket_cookie, bpf_map_lookup_elem, hp,
    redirect_hash_flags_zero, hs, hdeny]

theorem stream_verdict_stale {socks : Nat → Sock} (m : Maps) (skb : SkBuff) (B : Nat)
    (hp : m.peer.lookup skb.cookie = some B) (hs : m.sockhash.lookup B = none) :
    stream_verdict socks m skb = { ret := SK_DROP, redir := none, maps := m } := by
  simp [stream_verdict, bpf_get_socket_cookie, bpf_map_lookup_elem, hp,
    redirect_hash_flags_zero, hs]

theorem u32_to_int_small (n : Nat) (h : n < 2 ^ 31) : u32_to_int n = (n : Int) := by
  have h1 : n % 2 ^ 32 = n := Nat.mod_eq_of_lt (by omega)
  unfold u32_to_int
  rw [h1, if_pos h]

theorem u32_to_int_large (n : Nat) (h1 : 2 ^ 31 ≤ n) (h2 : n < 2 ^ 32) :
    u32_to_int n = (n : Int) - 2 ^ 32 := by
  have h3 : n % 2 ^ 32 = n := Nat.mod_eq_of_lt h2
  have h4 : ¬ n < 2 ^ 31 := by omega
  unfold u32_to_int
  rw [h3, if_neg h4]

/-! ## The control-plane operations, entry by entry -/

theorem update_lookup_same (cap : Nat) (t t2 : BpfMap) (k v : Nat)
    (hu : t.update cap k v = some t2) : t2.lookup k = some v := by
  unfold BpfMap.update at hu
  split at hu
  · cases hu
    exact findEntry_putEntry_same t.entries k v
  · cases hu

theorem update_lookup_other (cap : Nat) (t t2 : BpfMap) (k v k2 : Nat)
    (hu : t.update cap k v = some t2) (hne : k2 ≠ k) : t2.lookup k2 = t.lookup k2 := by
  unfold BpfMap.update at hu
  split at hu
  · cases hu
    exact findEntry_putEntry_other t.entries k v k2 hne
  · cases hu

theorem update_size_le (cap : Nat) (t t2 : BpfMap) (k v : Nat)
    (hu : t.update cap k v = some t2) (hle : t.size ≤ cap) : t2.size ≤ cap := by
  unfold BpfMap.update at hu
  split at hu
  next hcond =>
    cases hu
    rcases hcond with hsome | hroom
    · have hlen := length_putEntry_of_isSome t.entries k v hsome
      simp only [BpfMap.size] at hle ⊢
      omega
    · have hlen := length_putEntry_le t.entries k v
      simp only [BpfMap.size] at hroom ⊢
      omega
  · cases hu

theorem update_full_fails (cap : Nat) (t : BpfMap) (k v : Nat)
    (hfull : cap ≤ t.size) (hnew : t.lookup k = none) : t.update cap k v = none := by
  have hroom : ¬ t.size < cap := by omega
  simp [BpfMap.update, hnew, hroom]

theorem update_twice (cap : Nat) (t t2 : BpfMap) (k v : Nat)
    (hu : t.update cap k v = some t2) : t2.update cap k v = some t2 := by
  have hk : t2.lookup k = some v := update_lookup_same cap t t2 k v hu
  unfold BpfMap.update at hu
  split at hu
  · cases hu
    have hput := putEntry_putEntry t.entries k v
    simp only [BpfMap.lookup] at hk
    simp [BpfMap.update, BpfMap.lookup, hk, hput]
  · cases hu

theorem delete_size_le (t : BpfMap) (k : Nat) : (t.delete k).size ≤ t.size :=
  length_eraseEntry_le t.entries k

theorem delete_absent (t : BpfMap) (k : Nat) (hnone : t.lookup k = none) :
    t.delete k = t := by
  cases t with
  | mk l =>
    simp only [BpfMap.lookup] at hnone
    simp [BpfMap.delete, eraseEntry_of_findEntry_none l k hnone]

theorem insert_some (m m2 : Maps) (id ref : Nat)
    (hi : SocketRegistry.insert m id ref = some m2) :
    m2.peer = m.peer ∧ m2.sockhash.lookup id = some ref ∧
    ∀ k, k ≠ id → m2.sockhash.lookup k = m.sockhash.lookup k := by
  unfold SocketRegistry.insert at hi
  cases hu : m.sockhash.update sockhash.max_entries id ref with
  | none => simp [hu] at hi
  | some t =>
    simp only [hu, Option.map_some', Option.some.injEq] at hi
    subst hi
    exact ⟨rfl, update_lookup_same _ _ _ _ _ hu,
      fun k hk => update_lookup_other _ _ _ _ _ k hu hk⟩

theorem link_some (m m2 : Maps) (id peerId : Nat)
    (hl : PeerDirectory.link m id peerId = some m2) :
    m2.sockhash = m.sockhash ∧ m2.peer.lookup id = some peerId ∧
    ∀ k, k ≠ id → m2.peer.lookup k = m.peer.lookup k := by
  unfold PeerDirectory.link at hl
  cases hu : m.peer.update peer.max_entries id peerId with
  | none => simp [hu] at hl
  | some t =>
    simp only [hu, Option.map_some', Option.some.injEq] at hl
    subst hl
    exact ⟨rfl, update_lookup_same _ _ _ _ _ hu,
      fun k hk => update_lookup_other _ _ _ _ _ k hu hk⟩

theorem link_twice (m m2 : Maps) (id peerId : Nat)
    (hl : PeerDirectory.link m id peerId = some m2) :
    PeerDirectory.link m2 id peerId = some m2 := by
  unfold PeerDirectory.link at hl
  cases hu : m.peer.update peer.max_entries id peerId with
  | none => simp [hu] at hl
  | some t =>
    simp only [hu, Option.map_some', Option.some.injEq] at hl
    subst hl
    simp [PeerDirectory.link, update_twice _ _ _ _ _ hu]

theorem step_link_twice (socks : Nat → Sock) (m : Maps) (id peerId : Nat) :
    step socks (step socks m (Event.link id peerId)) (Event.link id peerId)
      = step socks m (Event.link id peerId) := by
  cases hl : PeerDirectory.link m id peerId with
  | none => simp [step, hl]
  | some m2 => simp [step, hl, link_twice m m2 id peerId hl]

theorem unlink_absent (m : Maps) (id : Nat) (hnone : m.peer.lookup id = none) :
    PeerDirectory.unlink m id = m := by
  cases m with
  | mk sh pr =>
    simp only at hnone
    simp [PeerDirectory.unlink, delete_absent pr id hnone]

theorem step_sizes (socks : Nat → Sock) (m : Maps) (ev : Event)
    (hs : m.sockhash.size ≤ sockhash.max_entries) (hp : m.peer.size ≤ peer.max_entries) :
    (step socks m ev).sockhash.size ≤ sockhash.max_entries ∧
    (step socks m ev).peer.size ≤ peer.max_entries := by
  cases ev with
  | insert id ref =>
    cases hu : m.sockhash.update sockhash.max_entries id ref with
    | none => simp [step, SocketRegistry.insert, hu, hs, hp]
    | some t =>
      simp only [step, SocketRegistry.insert, hu, Option.map_some', Option.getD_some]
      exact ⟨update_size_le _ _ _ _ _ hu hs, hp⟩
  | remove id =>
    exact ⟨Nat.le_trans (delete_size_le m.sockhash id) hs, hp⟩
  | link id peerId =>
    cases hu : m.peer.update peer.max_entries id peerId with
    | none => simp [step, PeerDirectory.link, hu, hs, hp]
    | some t =>
      simp only [step, PeerDirectory.link, hu, Option.map_some', Option.getD_some]
      exact ⟨hs, update_size_le _ _ _ _ _ hu hp⟩
  | unlink id =>
    exact ⟨hs, Nat.le_trans (delete_size_le m.peer id) hp⟩
  | parser skb => exact ⟨hs, hp⟩
  | verdict skb =>
    have hm : (stream_verdict socks m skb).maps = m := stream_verdict_maps socks m skb
    simp only [step, hm]
    exact ⟨hs, hp⟩

theorem run_sizes (socks : Nat → Sock) (evs : List Event) (m : Maps)
    (hs : m.sockhash.size ≤ sockhash.max_entries) (hp : m.peer.size ≤ peer.max_entries) :
    (run socks m evs).sockhash.size ≤ sockhash.max_entries ∧
    (run socks m evs).peer.size ≤ peer.max_entries := by
  induction evs generalizing m with
  | nil => exact ⟨hs, hp⟩
  | cons ev rest ih =>
    have hstep := step_sizes socks m ev hs hp
    simpa [run] using ih (step socks m ev) hstep.1 hstep.2

/-! ## Claims about the data plane -/

/-- C1: for every socket identity, every content of `sockhash` and every
inbound buffer, when `peer` has no entry for the buffer's socket,
`stream_verdict` returns `SK_PASS` and records no redirect: the kernel
delivers the data locally. -/
theorem stream_verdict_no_peer_pass (socks : Nat → Sock) (c : Nat)
    (registry directory : BpfMap) (skb : SkBuff)
    (hc : skb.cookie = c) (hp : directory.lookup c = none) :
    (stream_verdict socks ⟨registry, directory⟩ skb).ret = SK_PASS ∧
    (stream_verdict socks ⟨registry, directory⟩ skb).redir = none ∧
    (stream_verdict socks ⟨registry, directory⟩ skb).decision = Decision.PASS := by
  subst hc
  rw [stream_verdict_unlinked ⟨registry, directory⟩ skb hp]
  simp [Outcome.decision]

theorem stream_verdict_no_peer_pass_witness :
    (⟨10, 4, [7, 7]⟩ : SkBuff).cookie = 4 ∧ pairedMaps.peer.lookup 4 = none ∧
    (stream_verdict listeningSocks ⟨pairedMaps.sockhash, pairedMaps.peer⟩
      ⟨10, 4, [7, 7]⟩).ret = SK_PASS ∧
    (stream_verdict listeningSocks ⟨pairedMaps.sockhash, pairedMaps.peer⟩
      ⟨10, 4, [7, 7]⟩).redir = none ∧
    (stream_verdict listeningSocks ⟨pairedMaps.sockhash, pairedMaps.peer⟩
      ⟨10, 4, [7, 7]⟩).decision = Decision.PASS :=
  ⟨rfl, by decide,
    stream_verdict_no_peer_pass listeningSocks 4 pairedMaps.sockhash pairedMaps.peer
      ⟨10, 4, [7, 7]⟩ rfl (by decide)⟩

/-- C2, as the claim states it, fails: with `peer` mapping 1 to 2 and
`sockhash` holding socket 200 under 2, where socket 200 is a listening TCP
socket, `stream_verdict` on data arriving on socket 1 returns `SK_DROP` with
no redirect recorded: the registry has an entry for the peer and the decision
is DROP, not REDIRECT. -/
theorem registered_listening_socket_drops :
    pairedMaps.peer.lookup 1 = some 2 ∧ pairedMaps.sockhash.lookup 2 = some 200 ∧
    sock_map_redirect_allowed (listeningSocks 200) = false ∧
    (stream_verdict listeningSocks pairedMaps ⟨10, 1, [7]⟩).ret = SK_DROP ∧
    (stream_verdict listeningSocks pairedMaps ⟨10, 1, [7]⟩).redir = none ∧
    (stream_verdict listeningSocks pairedMaps ⟨10, 1, [7]⟩).decision = Decision.DROP := by
  decide

/-- C2, amended: for all socket identities A and B (A = B included), when
`peer` maps A to B, `sockhash` holds the socket `sk` under B and `sk` can
take redirected data (a TCP socket that is not listening, or another socket
that is established), `stream_verdict` on data arriving on A returns
`SK_PASS` with a redirect recorded whose target is exactly `sk`, the entry
read under the key taken from `peer`; the kernel's decision is REDIRECT to
`sk` and not local delivery. -/
theorem stream_verdict_redirects_to_peer (socks : Nat → Sock) (m : Maps) (skb : SkBuff)
    (A B sk : Nat) (hA : skb.cookie = A) (hp : m.peer.lookup A = some B)
    (hs : m.sockhash.lookup B = some sk)
    (hallow : sock_map_redirect_allowed (socks sk) = true) :
    (stream_verdict socks m skb).ret = SK_PASS ∧
    (stream_verdict socks m skb).redir.map Redirect.sk = m.sockhash.lookup B ∧
    (stream_verdict socks m skb).redir.map Redirect.sk = some sk ∧
    (∃ dir, (stream_verdict socks m skb).decision = Decision.REDIRECT sk dir) ∧
    (stream_verdict socks m skb).decision ≠ Decision.PASS := by
  subst hA
  rw [stream_verdict_linked m skb B sk hp hs hallow]
  simp [Outcome.decision, hs]

theorem stream_verdict_redirects_to_peer_witness :
    (⟨10, 2, [7]⟩ : SkBuff).cookie = 2 ∧ pairedMaps.peer.lookup 2 = some 1 ∧
    pairedMaps.sockhash.lookup 1 = some 100 ∧
    sock_map_redirect_allowed (listeningSocks 100) = true ∧
    (stream_verdict listeningSocks pairedMaps ⟨10, 2, [7]⟩).redir.map Redirect.sk
      = some 100 :=
  ⟨rfl, by decide, by decide, by decide,
    (stream_verdict_redirects_to_peer listeningSocks pairedMaps ⟨10, 2, [7]⟩ 2 1 100 rfl
      (by decide) (by decide) (by decide)).2.2.1⟩

/-- C4, as the claim states it, fails: for the length 2^31 (a value of the
unsigned 32-bit field) `stream_parser` returns -2^31, which is not 2^31. -/
theorem stream_parser_length_wraps :
    (2147483648 : Nat) < 2 ^ 32 ∧
    (stream_parser_prog Maps.empty ⟨2147483648, 1, []⟩).ret = -2147483648 ∧
    (stream_parser_prog Maps.empty ⟨2147483648, 1, []⟩).ret ≠ ((2147483648 : Nat) : Int) := by
  decide

/-- C4, amended: for every value n of the buffer's unsigned 32-bit length
field, the `int` returned by `stream_parser` is n when n < 2^31 and n - 2^32
when 2^31 <= n < 2^32; it does not depend on the tables or on the socket
identity, nor on the payload. -/
theorem stream_parser_returns_length (m : Maps) (skb : SkBuff) (n : Nat)
    (hlen : skb.len = n) (hn : n < 2 ^ 32) :
    (n < 2 ^ 31 → (stream_parser_prog m skb).ret = (n : Int)) ∧
    (2 ^ 31 ≤ n → (stream_parser_prog m skb).ret = (n : Int) - 2 ^ 32) ∧
    ∀ (m2 : Maps) (c : Nat) (d : List Nat),
      (stream_parser_prog m2 ⟨n, c, d⟩).ret = (stream_parser_prog m skb).ret := by
  subst hlen
  refine ⟨fun h => u32_to_int_small _ h, fun h => u32_to_int_large _ h hn, ?_⟩
  intro m2 c d
  rfl

theorem stream_parser_returns_length_witness :
    (⟨1500, 1, [7]⟩ : SkBuff).len = 1500 ∧ (1500 : Nat) < 2 ^ 32 ∧
    (stream_parser_prog pairedMaps ⟨1500, 1, [7]⟩).ret = 1500 :=
  ⟨rfl, by decide,
    (stream_parser_returns_length pairedMaps ⟨1500, 1, [7]⟩ 1500 rfl (by decide)).1
      (by decide)⟩

/-- C5, as the claim states it, fails: starting from empty tables, sockets 1
and 2 are registered (socket references 100 and 200) and linked to each other
by the four operations, each of which succeeds; socket 200 is a listening TCP
socket, and `stream_verdict` on data arriving on socket 1 decides DROP, not
REDIRECT to socket 2's registry entry. -/
theorem pairing_with_listening_socket_drops :
    SocketRegistry.insert Maps.empty 1 100 = some ⟨⟨[(1, 100)]⟩, ⟨[]⟩⟩ ∧
    SocketRegistry.insert ⟨⟨[(1, 100)]⟩, ⟨[]⟩⟩ 2 200
      = some ⟨⟨[(1, 100), (2, 200)]⟩, ⟨[]⟩⟩ ∧
    PeerDirectory.link ⟨⟨[(1, 100), (2, 200)]⟩, ⟨[]⟩⟩ 1 2
      = some ⟨⟨[(1, 100), (2, 200)]⟩, ⟨[(1, 2)]⟩⟩ ∧
    PeerDirectory.link ⟨⟨[(1, 100), (2, 200)]⟩, ⟨[(1, 2)]⟩⟩ 2 1
      = some ⟨⟨[(1, 100), (2, 200)]⟩, ⟨[(1, 2), (2, 1)]⟩⟩ ∧
    (stream_verdict listeningSocks ⟨⟨[(1, 100), (2, 200)]⟩, ⟨[(1, 2), (2, 1)]⟩⟩
      ⟨10, 1, [7]⟩).ret = SK_DROP ∧
    (stream_verdict listeningSocks ⟨⟨[(1, 100), (2, 200)]⟩, ⟨[(1, 2), (2, 1)]⟩⟩
      ⟨10, 1, [7]⟩).decision = Decision.DROP := by
  decide

/-- C5, amended: pairing scenario.  For distinct socket identities S1, S2 and
any initial tables, once S1 and S2 are registered with sockets `r1`, `r2`
that can take redirected data and the links S1 to S2 and S2 to S1 are
installed, `stream_verdict` on S1 decides REDIRECT to S2's registry entry and
on S2 REDIRECT to S1's registry entry; after `unlink(S1)` the verdict on S1
is PASS while the verdict on S2 still redirects to S1's registry entry. -/
theorem pairing_scenario (socks : Nat → Sock) (m m1 m2 m3 m4 : Maps) (S1 S2 r1 r2 : Nat)
    (skb1 skb2 : SkBuff)
    (hne : S1 ≠ S2) (hc1 : skb1.cookie = S1) (hc2 : skb2.cookie = S2)
    (ha1 : sock_map_redirect_allowed (socks r1) = true)
    (ha2 : sock_map_redirect_allowed (socks r2) = true)
    (h1 : SocketRegistry.insert m S1 r1 = some m1)
    (h2 : SocketRegistry.insert m1 S2 r2 = some m2)
    (h3 : PeerDirectory.link m2 S1 S2 = some m3)
    (h4 : PeerDirectory.link m3 S2 S1 = some m4) :
    (m4.sockhash.lookup S1 = some r1 ∧ m4.sockhash.lookup S2 = some r2) ∧
    ((stream_verdict socks m4 skb1).ret = SK_PASS ∧
      (stream_verdict socks m4 skb1).decision = Decision.REDIRECT r2 false) ∧
    ((stream_verdict socks m4 skb2).ret = SK_PASS ∧
      (stream_verdict socks m4 skb2).decision = Decision.REDIRECT r1 false) ∧
    ((stream_verdict socks (PeerDirectory.unlink m4 S1) skb1).ret = SK_PASS ∧
      (stream_verdict socks (PeerDirectory.unlink m4 S1) skb1).redir = none ∧
      (stream_verdict socks (PeerDirectory.unlink m4 S1) skb1).decision
        = Decision.PASS) ∧
    ((stream_verdict socks (PeerDirectory.unlink m4 S1) skb2).ret = SK_PASS ∧
      (stream_verdict socks (PeerDirectory.unlink m4 S1) skb2).decision
        = Decision.REDIRECT r1 false) := by
  subst hc1 hc2
  obtain ⟨_, hi1, _⟩ := insert_some m m1 _ r1 h1
  obtain ⟨_, hi2, hi2o⟩ := insert_some m1 m2 _ r2 h2
  obtain ⟨hl3s, hl3, _⟩ := link_some m2 m3 _ _ h3
  obtain ⟨hl4s, hl4, hl4o⟩ := link_some m3 m4 _ _ h4
  have hr1 : m4.sockhash.lookup skb1.cookie = some r1 := by
    rw [hl4s, hl3s, hi2o _ hne, hi1]
  have hr2 : m4.sockhash.lookup skb2.cookie = some r2 := by
    rw [hl4s, hl3s, hi2]
  have hp1 : m4.peer.lookup skb1.cookie = some skb2.cookie := by
    rw [hl4o _ hne, hl3]
  have hu1 : (PeerDirectory.unlink m4 skb1.cookie).peer.lookup skb1.cookie = none :=
    findEntry_eraseEntry_same m4.peer.entries skb1.cookie
  have hu2 : (PeerDirectory.unlink m4 skb1.cookie).peer.lookup skb2.cookie
      = some skb1.cookie := by
    have hother := findEntry_eraseEntry_other m4.peer.entries skb1.cookie skb2.cookie
      (Ne.symm hne)
    simp only [BpfMap.lookup] at hl4
    simpa [PeerDirectory.unlink, BpfMap.delete, BpfMap.lookup, hl4] using hother
  have hus : (PeerDirectory.unlink m4 skb1.cookie).sockhash.lookup skb1.cookie
      = some r1 := hr1
  refine ⟨⟨hr1, hr2⟩, ?_, ?_, ?_, ?_⟩
  · rw [stream_verdict_linked m4 skb1 _ r2 hp1 hr2 ha2]
    simp [Outcome.decision]
  · rw [stream_verdict_linked m4 skb2 _ r1 hl4 hr1 ha1]
    simp [Outcome.decision]
  · rw [stream_verdict_unlinked _ skb1 hu1]
    simp [Outcome.decision]
  · rw [stream_verdict_linked _ skb2 _ r1 hu2 hus ha1]
    simp [Outcome.decision]

theorem pairing_scenario_witness :
    (stream_verdict establishedSocks ⟨⟨[(1, 100), (2, 200)]⟩, ⟨[(1, 2), (2, 1)]⟩⟩
      ⟨10, 1, [7]⟩).decision = Decision.REDIRECT 200 false ∧
    (stream_verdict establishedSocks
      (PeerDirectory.unlink ⟨⟨[(1, 100), (2, 200)]⟩, ⟨[(1, 2), (2, 1)]⟩⟩ 1)
      ⟨10, 1, [7]⟩).decision = Decision.PASS ∧
    (stream_verdict establishedSocks
      (PeerDirectory.unlink ⟨⟨[(1, 100), (2, 200)]⟩, ⟨[(1, 2), (2, 1)]⟩⟩ 1)
      ⟨20, 2, [8, 9]⟩).decision = Decision.REDIRECT 100 false :=
  have h := pairing_scenario establishedSocks Maps.empty ⟨⟨[(1, 100)]⟩, ⟨[]⟩⟩
    ⟨⟨[(1, 100), (2, 200)]⟩, ⟨[]⟩⟩ ⟨⟨[(1, 100), (2, 200)]⟩, ⟨[(1, 2)]⟩⟩
    ⟨⟨[(1, 100), (2, 200)]⟩, ⟨[(1, 2), (2, 1)]⟩⟩ 1 2 100 200 ⟨10, 1, [7]⟩ ⟨20, 2, [8, 9]⟩
    (by decide) rfl rfl (by decide) (by decide)
    (by decide) (by decide) (by decide) (by decide)
  ⟨h.2.1.2, h.2.2.2.1.2.2, h.2.2.2.2.2⟩

/-- C6, as the claim states it, fails: with sockets 1 and 2 paired,
`stream_verdict` on socket 1 decides REDIRECT to socket 2's entry with the
ingress direction not selected (flags 0, `BPF_F_INGRESS` absent): the data
goes to the target's transmit path, not to its receive queue. -/
theorem redirect_is_not_ingress :
    (stream_verdict establishedSocks pairedMaps ⟨10, 1, [7]⟩).decision
      = Decision.REDIRECT 200 false ∧
    (stream_verdict establishedSocks pairedMaps ⟨10, 1, [7]⟩).redir = some ⟨200, false⟩ ∧
    (stream_verdict establishedSocks pairedMaps ⟨10, 1, [7]⟩).redir.map Redirect.ingress
      ≠ some true := by
  decide

/-- C6, amended: whenever `stream_verdict` decides REDIRECT, the redirect it
issued on `sockhash` carries flags 0, so the egress direction is selected:
the data is directed to the target socket's transmit path. -/
theorem redirect_is_egress (socks : Nat → Sock) (m : Maps) (skb : SkBuff) (t : Nat)
    (dir : Bool)
    (hd : (stream_verdict socks m skb).decision = Decision.REDIRECT t dir) :
    dir = false ∧ (stream_verdict socks m skb).redir = some ⟨t, false⟩ := by
  cases hp : m.peer.lookup skb.cookie with
  | none =>
    rw [stream_verdict_unlinked m skb hp] at hd
    simp [Outcome.decision] at hd
  | some B =>
    cases hs : m.sockhash.lookup B with
    | none =>
      rw [stream_verdict_stale m skb B hp hs] at hd
      simp [Outcome.decision, SK_DROP, SK_PASS] at hd
    | some sk =>
      cases ha : sock_map_redirect_allowed (socks sk) with
      | false =>
        rw [stream_verdict_refused m skb B sk hp hs ha] at hd
        simp [Outcome.decision, SK_DROP, SK_PASS] at hd
      | true =>
        rw [stream_verdict_linked m skb B sk hp hs ha] at hd ⊢
        simp only [Outcome.decision, if_true, Decision.REDIRECT.injEq] at hd
        obtain ⟨h1, h2⟩ := hd
        subst h1
        exact ⟨h2.symm, rfl⟩

theorem redirect_is_egress_witness :
    (stream_verdict establishedSocks pairedMaps ⟨10, 1, [7]⟩).decision
      = Decision.REDIRECT 200 false ∧
    (stream_verdict establishedSocks pairedMaps ⟨10, 1, [7]⟩).redir
      = some ⟨200, false⟩ :=
  ⟨by decide,
    (redirect_is_egress establishedSocks pairedMaps ⟨10, 1, [7]⟩ 200 false (by decide)).2⟩

/-- C7: the data plane only reads the tables: for every table state and
buffer, after `stream_parser` and after `stream_verdict` (whatever it
returns) both `peer` and `sockhash` hold exactly what they held before. -/
theorem data_plane_read_only (socks : Nat → Sock) (m : Maps) (skb : SkBuff) :
    ((stream_parser_prog m skb).maps.peer = m.peer ∧
      (stream_parser_prog m skb).maps.sockhash = m.sockhash) ∧
    ((stream_verdict socks m skb).maps.peer = m.peer ∧
      (stream_verdict socks m skb).maps.sockhash = m.sockhash) ∧
    step socks m (Event.parser skb) = m ∧ step socks m (Event.verdict skb) = m := by
  have hm : (stream_verdict socks m skb).maps = m := stream_verdict_maps socks m skb
  refine ⟨⟨rfl, rfl⟩, ⟨by rw [hm], by rw [hm]⟩, rfl, ?_⟩
  simp only [step, hm]

/-- C8: the verdict does not look at the payload: two buffers arriving on
the same socket identity under the same tables get the same return value and
the same redirect target from `stream_verdict`, whatever their payload bytes
and lengths. -/
theorem verdict_ignores_payload (socks : Nat → Sock) (m : Maps) (c len1 len2 : Nat)
    (data1 data2 : List Nat) :
    (stream_verdict socks m ⟨len1, c, data1⟩).ret
      = (stream_verdict socks m ⟨len2, c, data2⟩).ret ∧
    (stream_verdict socks m ⟨len1, c, data1⟩).redir
      = (stream_verdict socks m ⟨len2, c, data2⟩).redir ∧
    (stream_verdict socks m ⟨len1, c, data1⟩).decision
      = (stream_verdict socks m ⟨len2, c, data2⟩).decision := by
  have h : stream_verdict socks m ⟨len1, c, data1⟩
      = stream_verdict socks m ⟨len2, c, data2⟩ := rfl
  rw [h]
  exact ⟨rfl, rfl, rfl⟩

/-! ## Claims about the control-plane operations -/

/-- C9: idempotence of the Peer Directory operations.  For every table state
and identities A, B: `link(A,B)` applied twice leaves the same tables as
applied once (a successful `link(A,B)` repeated succeeds and changes
nothing); `unlink(A)` when A has no link leaves the tables unchanged; so
`stream_verdict` gives the same outcome for every buffer before and after the
repeated or no-op operation. -/
theorem peer_ops_idempotent (socks : Nat → Sock) (m : Maps) (A B : Nat) :
    run socks m [Event.link A B, Event.link A B] = run socks m [Event.link A B] ∧
    (∀ m1, PeerDirectory.link m A B = some m1 → PeerDirectory.link m1 A B = some m1) ∧
    (m.peer.lookup A = none → PeerDirectory.unlink m A = m) ∧
    (∀ skb, stream_verdict socks (run socks m [Event.link A B, Event.link A B]) skb
      = stream_verdict socks (run socks m [Event.link A B]) skb) ∧
    (m.peer.lookup A = none →
      ∀ skb, stream_verdict socks (run socks m [Event.unlink A]) skb
        = stream_verdict socks m skb) := by
  have hrun : run socks m [Event.link A B, Event.link A B]
      = run socks m [Event.link A B] := by
    simp only [run, List.foldl_cons, List.foldl_nil]
    exact step_link_twice socks m A B
  refine ⟨hrun, fun m1 h => link_twice m m1 A B h, unlink_absent m A, ?_, ?_⟩
  · intro skb
    rw [hrun]
  · intro hnone skb
    simp only [run, List.foldl_cons, List.foldl_nil, step]
    rw [unlink_absent m A hnone]

theorem peer_ops_idempotent_witness :
    pairedMaps.peer.lookup 4 = none ∧ PeerDirectory.unlink pairedMaps 4 = pairedMaps ∧
    PeerDirectory.link pairedMaps 4 1 = some ⟨pairedMaps.sockhash, ⟨[(1, 2), (2, 1), (3, 9), (4, 1)]⟩⟩ ∧
    PeerDirectory.link ⟨pairedMaps.sockhash, ⟨[(1, 2), (2, 1), (3, 9), (4, 1)]⟩⟩ 4 1
      = some ⟨pairedMaps.sockhash, ⟨[(1, 2), (2, 1), (3, 9), (4, 1)]⟩⟩ :=
  ⟨by decide, (peer_ops_idempotent establishedSocks pairedMaps 4 1).2.2.1 (by decide),
    by decide, (peer_ops_idempotent establishedSocks pairedMaps 4 1).2.1 _ (by decide)⟩

/-- C10: capacity bound.  Both declarations fix `max_entries` at 131072;
starting from empty tables, after any sequence of control-plane operations
and data-plane runs each table holds at most 131072 entries; when a table
holds `max_entries` entries, a further `insert` (Socket Registry) or `link`
(Peer Directory) of an identity without entry fails, the tables stay exactly
as they were, and `stream_verdict` gives every buffer the same outcome as
before. -/
theorem capacity_bound (socks : Nat → Sock) :
    (sockhash.max_entries = 131072 ∧ peer.max_entries = 131072) ∧
    (∀ evs : List Event, (run socks Maps.empty evs).sockhash.size ≤ 131072 ∧
      (run socks Maps.empty evs).peer.size ≤ 131072) ∧
    (∀ (m : Maps) (id ref : Nat), sockhash.max_entries ≤ m.sockhash.size →
      m.sockhash.lookup id = none →
      SocketRegistry.insert m id ref = none ∧ step socks m (Event.insert id ref) = m ∧
      ∀ skb, stream_verdict socks (step socks m (Event.insert id ref)) skb
        = stream_verdict socks m skb) ∧
    (∀ (m : Maps) (id peerId : Nat), peer.max_entries ≤ m.peer.size →
      m.peer.lookup id = none →
      PeerDirectory.link m id peerId = none ∧ step socks m (Event.link id peerId) = m ∧
      ∀ skb, stream_verdict socks (step socks m (Event.link id peerId)) skb
        = stream_verdict socks m skb) := by
  refine ⟨⟨rfl, rfl⟩, ?_, ?_, ?_⟩
  · intro evs
    exact run_sizes socks evs Maps.empty (Nat.zero_le _) (Nat.zero_le _)
  · intro m id ref hfull hnew
    have hi : SocketRegistry.insert m id ref = none := by
      simp [SocketRegistry.insert, update_full_fails _ _ id ref hfull hnew]
    have hst : step socks m (Event.insert id ref) = m := by simp [step, hi]
    exact ⟨hi, hst, fun skb => by rw [hst]⟩
  · intro m id peerId hfull hnew
    have hl : PeerDirectory.link m id peerId = none := by
      simp [PeerDirectory.link, update_full_fails _ _ id peerId hfull hnew]
    have hst : step socks m (Event.link id peerId) = m := by simp [step, hl]
    exact ⟨hl, hst, fun skb => by rw [hst]⟩

theorem capacity_bound_witness :
    fullMaps.sockhash.size = 131072 ∧ fullMaps.sockhash.lookup 131072 = none ∧
    SocketRegistry.insert fullMaps 131072 5 = none ∧
    step establishedSocks fullMaps (Event.insert 131072 5) = fullMaps ∧
    PeerDirectory.link fullMaps 131072 5 = none ∧
    step establishedSocks fullMaps (Event.link 131072 5) = fullMaps :=
  have hs : sockhash.max_entries ≤ fullMaps.sockhash.size :=
    Nat.le_of_eq (size_filled sockhash.max_entries).symm
  have hp : peer.max_entries ≤ fullMaps.peer.size :=
    Nat.le_of_eq (size_filled peer.max_entries).symm
  have hi := (capacity_bound establishedSocks).2.2.1 fullMaps 131072 5 hs
    (lookup_filled_none sockhash.max_entries 131072 (Nat.le_refl _))
  have hl := (capacity_bound establishedSocks).2.2.2 fullMaps 131072 5 hp
    (lookup_filled_none peer.max_entries 131072 (Nat.le_refl _))
  ⟨size_filled sockhash.max_entries,
    lookup_filled_none sockhash.max_entries 131072 (Nat.le_refl _),
    hi.1, hi.2.1, hl.1, hl.2.1⟩

/-! ## Locality of the verdict -/

theorem verdict_of_lookups (socks : Nat → Sock) (m : Maps) (skb : SkBuff) :
    (stream_verdict socks m skb).verdict =
      match m.peer.lookup skb.cookie with
      | none => (SK_PASS, none)
      | some B =>
        match m.sockhash.lookup B with
        | none => (SK_DROP, none)
        | some sk =>
          if sock_map_redirect_allowed (socks sk) then (SK_PASS, some ⟨sk, false⟩)
          else (SK_DROP, none) := by
  cases hp : m.peer.lookup skb.cookie with
  | none => rw [stream_verdict_unlinked m skb hp]; rfl
  | some B =>
    cases hs : m.sockhash.lookup B with
    | none =>
      rw [stream_verdict_stale m skb B hp hs]
      simp [Outcome.verdict, hs]
    | some sk =>
      cases ha : sock_map_redirect_allowed (socks sk) with
      | false =>
        rw [stream_verdict_refused m skb B sk hp hs ha]
        simp [Outcome.verdict, hs, ha]
      | true =>
        rw [stream_verdict_linked m skb B sk hp hs ha]
        simp [Outcome.verdict, hs, ha]

theorem decision_of_verdict (o1 o2 : Outcome) (hv : o1.verdict = o2.verdict) :
    o1.decision = o2.decision := by
  simp only [Outcome.verdict, Prod.mk.injEq] at hv
  simp [Outcome.decision, hv.1, hv.2]

theorem verdict_agree (socks : Nat → Sock) (m1 m2 : Maps) (skb1 skb2 : SkBuff)
    (hc : skb1.cookie = skb2.cookie)
    (hpeer : m1.peer.lookup skb1.cookie = m2.peer.lookup skb1.cookie)
    (hreg : ∀ B, m1.peer.lookup skb1.cookie = some B →
      m1.sockhash.lookup B = m2.sockhash.lookup B) :
    (stream_verdict socks m1 skb1).verdict = (stream_verdict socks m2 skb2).verdict := by
  rw [verdict_of_lookups socks m1 skb1, verdict_of_lookups socks m2 skb2, ← hc, ← hpeer]
  cases hp : m1.peer.lookup skb1.cookie with
  | none => rfl
  | some B =>
    simp only
    rw [← hreg B hp]

/-- C12: locality of the decision.  The result of `stream_verdict` for socket
identity A depends only on `peer[A]` and, when that is some B, on
`sockhash[B]`: two table states that agree on `peer[A]` and (if
`peer[A] = B`) on `sockhash[B]` give data arriving on A the same return
value, the same redirect target and the same decision.  In particular every
other content has no influence: the registry may hold anything under the
keys other than B, A's own key among them, and the directory may hold
anything under the keys other than A (links of other sockets, the link
stored for B; links are not followed). -/
theorem verdict_locality (socks : Nat → Sock) (m1 m2 : Maps) (skb1 skb2 : SkBuff) (A : Nat)
    (hc1 : skb1.cookie = A) (hc2 : skb2.cookie = A)
    (hpeer : m1.peer.lookup A = m2.peer.lookup A)
    (hreg : ∀ B, m1.peer.lookup A = some B →
      m1.sockhash.lookup B = m2.sockhash.lookup B) :
    ((stream_verdict socks m1 skb1).ret = (stream_verdict socks m2 skb2).ret ∧
      (stream_verdict socks m1 skb1).redir = (stream_verdict socks m2 skb2).redir ∧
      (stream_verdict socks m1 skb1).decision
        = (stream_verdict socks m2 skb2).decision) ∧
    (∀ directory : BpfMap, directory.lookup A = m1.peer.lookup A →
      (stream_verdict socks ⟨m1.sockhash, directory⟩ skb1).verdict
        = (stream_verdict socks m1 skb1).verdict) ∧
    (m1.peer.lookup A ≠ some A →
      ∀ registry : BpfMap, (∀ k, k ≠ A → registry.lookup k = m1.sockhash.lookup k) →
        (stream_verdict socks ⟨registry, m1.peer⟩ skb1).verdict
          = (stream_verdict socks m1 skb1).verdict) ∧
    (∀ registry : BpfMap,
      (∀ B, m1.peer.lookup A = some B → registry.lookup B = m1.sockhash.lookup B) →
        (stream_verdict socks ⟨registry, m1.peer⟩ skb1).verdict
          = (stream_verdict socks m1 skb1).verdict) := by
  subst hc1
  have hv := verdict_agree socks m1 m2 skb1 skb2 hc2.symm hpeer hreg
  refine ⟨?_, ?_, ?_, ?_⟩
  · have hd := decision_of_verdict _ _ hv
    simp only [Outcome.verdict, Prod.mk.injEq] at hv
    exact ⟨hv.1, hv.2, hd⟩
  · intro directory hdir
    exact (verdict_agree socks m1 ⟨m1.sockhash, directory⟩ skb1 skb1 rfl hdir.symm
      (fun _ _ => rfl)).symm
  · intro hself registry hothers
    refine (verdict_agree socks m1 ⟨registry, m1.peer⟩ skb1 skb1 rfl rfl ?_).symm
    intro B hB
    have hne : B ≠ skb1.cookie := by
      intro hEq
      subst hEq
      exact hself hB
    exact (hothers B hne).symm
  · intro registry hsame
    refine (verdict_agree socks m1 ⟨registry, m1.peer⟩ skb1 skb1 rfl rfl ?_).symm
    intro B hB
    exact (hsame B hB).symm

theorem verdict_locality_witness :
    pairedMaps.peer.lookup 1 = relinkedMaps.peer.lookup 1 ∧
    pairedMaps.sockhash.lookup 1 ≠ relinkedMaps.sockhash.lookup 1 ∧
    pairedMaps.peer.lookup 2 ≠ relinkedMaps.peer.lookup 2 ∧
    (stream_verdict establishedSocks pairedMaps ⟨10, 1, [7]⟩).decision
      = (stream_verdict establishedSocks relinkedMaps ⟨30, 1, [8, 9]⟩).decision ∧
    (stream_verdict establishedSocks relinkedMaps ⟨30, 1, [8, 9]⟩).decision
      = Decision.REDIRECT 200 false :=
  have h := verdict_locality establishedSocks pairedMaps relinkedMaps ⟨10, 1, [7]⟩
    ⟨30, 1, [8, 9]⟩ 1 rfl rfl (by decide)
    (by
      intro B hB
      have h2 : pairedMaps.peer.lookup 1 = some 2 := by decide
      rw [h2] at hB
      cases hB
      decide)
  ⟨by decide, by decide, by decide, h.1.2.2, by decide⟩

end UA3F
